import Mathlib

/-!
# Verification of the SunnahTracker Hijri calendar engine

Shallow embedding of `src/components/HijriMonthlyCalendar.tsx`.

Modelling conventions:
* A Gregorian calendar day is an integer day number (`Int`); the JS code only
  ever steps `Date` values by whole days (`setDate(getDate() ± 1)`) and
  compares them, so day numbers are a faithful model.
* The Gregorian→Hijri conversion oracle (`getHijriParts`, built on
  `Intl.DateTimeFormat` with the `islamic-umalqura` calendar) is an abstract
  function `Int → HijriParts`.
* The unbounded JS `while` loops are modelled with an explicit fuel
  parameter returning `Option`: `none` means the loop had not yet exited
  after `fuel` iterations.  The real loop terminates on an input iff some
  fuel suffices.
-/

/-- Result of `getHijriParts`: the `{day, month, year}` triple read from the
oracle for one Gregorian day. -/
structure HijriParts where
  day : Int
  month : Int
  year : Int
deriving DecidableEq

/-- The check-first scanning loop shared by the initial test and the
`while (currentYear !== targetYear)` loop of `getDateInHijriYear`
(part_000 lines 39-48): if the oracle's year at `d` is the target, stop at
`d`, else step by `dir` and retry.  `fuel` bounds the number of steps. -/
def scanToYear (oracle : Int → HijriParts) (targetYear dir : Int) :
    Nat → Int → Option Int
  | 0, d => if (oracle d).year = targetYear then some d else none
  | n + 1, d =>
    if (oracle d).year = targetYear then some d
    else scanToYear oracle targetYear dir n (d + dir)

/-- `getDateInHijriYear` (part_000 lines 33-51): estimate the target year's
position at 354 days per Hijri year from the anchor, then scan one day at a
time in the direction of the target year. -/
def getDateInHijriYear (oracle : Int → HijriParts) (fuel : Nat)
    (targetYear anchor : Int) : Option Int :=
  let anchorYear := (oracle anchor).year
  let shiftDays := (targetYear - anchorYear) * 354
  let guess := anchor + shiftDays
  let direction : Int := if (oracle guess).year < targetYear then 1 else -1
  scanToYear oracle targetYear direction fuel guess

/-- The backward scan of `getHijriYearStart` (part_000 lines 56-59):
`while (year(start) === targetYear) start -= 1;` then `start += 1`. -/
def backScan (oracle : Int → HijriParts) (targetYear : Int) :
    Nat → Int → Option Int
  | 0, d => if (oracle d).year = targetYear then none else some (d + 1)
  | n + 1, d =>
    if (oracle d).year = targetYear then backScan oracle targetYear n (d - 1)
    else some (d + 1)

/-- `getHijriYearStart` (part_000 lines 53-61): find a date inside the target
Hijri year, then scan backwards past the first day of that year. -/
def getHijriYearStart (oracle : Int → HijriParts) (fuel : Nat)
    (targetYear anchor : Int) : Option Int :=
  match getDateInHijriYear oracle fuel targetYear anchor with
  | none => none
  | some dateInYear => backScan oracle targetYear fuel dateInYear

/-- A concrete well-behaved oracle used to exercise the scanning code on
closed inputs: years of exactly 354 days (months 1-11 of 30 days, month 12
of 24 days), day 0 being day 1, month 1 of year 1. -/
def toyOracle (d : Int) : HijriParts :=
  let r := d % 354
  ⟨r % 30 + 1, r / 30 + 1, d / 354 + 1⟩

/-- An oracle that never reports any year other than 1; used to show the
scanning loops of the source are unbounded. -/
def stuckOracle (_ : Int) : HijriParts := ⟨1, 1, 1⟩

/-- The unbounded `while` loop inside `getHijriYearStart` terminates on a
given input iff some fuel makes the fueled model exit. -/
def YearStartTerminates (oracle : Int → HijriParts)
    (targetYear anchor : Int) : Prop :=
  ∃ fuel : Nat, (getHijriYearStart oracle fuel targetYear anchor).isSome

/-- Well-formedness of a calendar oracle at year boundaries: whenever the
Hijri year changes between consecutive days, the later day is day 1 of
month 1 of the next year. -/
def YearBoundary (oracle : Int → HijriParts) : Prop :=
  ∀ d : Int, (oracle d).year ≠ (oracle (d + 1)).year →
    oracle (d + 1) = ⟨1, 1, (oracle d).year + 1⟩

/-- Well-formedness: the Hijri year is nondecreasing in the Gregorian day. -/
def YearMono (oracle : Int → HijriParts) : Prop :=
  ∀ d : Int, (oracle d).year ≤ (oracle (d + 1)).year

/-- Well-formedness: within one Hijri year the month number is
nondecreasing in the Gregorian day. -/
def MonthMono (oracle : Int → HijriParts) : Prop :=
  ∀ d : Int, (oracle d).year = (oracle (d + 1)).year →
    (oracle d).month ≤ (oracle (d + 1)).month

/-- Well-formedness: within one Hijri year, a month change between
consecutive days lands on day 1 of the new month. -/
def NewMonthDay1 (oracle : Int → HijriParts) : Prop :=
  ∀ d : Int, (oracle d).year = (oracle (d + 1)).year →
    (oracle d).month ≠ (oracle (d + 1)).month → (oracle (d + 1)).day = 1

theorem scanToYear_year (oracle : Int → HijriParts) (targetYear dir : Int) :
    ∀ (fuel : Nat) (d g : Int),
      scanToYear oracle targetYear dir fuel d = some g →
      (oracle g).year = targetYear := by
  intro fuel
  induction fuel with
  | zero =>
    intro d g h
    by_cases hy : (oracle d).year = targetYear
    · simp [scanToYear, hy] at h; subst h; exact hy
    · simp [scanToYear, hy] at h
  | succ n ih =>
    intro d g h
    by_cases hy : (oracle d).year = targetYear
    · simp [scanToYear, hy] at h; subst h; exact hy
    · simp only [scanToYear, if_neg hy] at h
      exact ih (d + dir) g h

theorem getDateInHijriYear_year (oracle : Int → HijriParts) (fuel : Nat)
    (targetYear anchor g : Int)
    (h : getDateInHijriYear oracle fuel targetYear anchor = some g) :
    (oracle g).year = targetYear :=
  scanToYear_year oracle targetYear _ fuel _ g h

theorem backScan_of_ne (oracle : Int → HijriParts) (targetYear : Int)
    (fuel : Nat) (d : Int) (h : (oracle d).year ≠ targetYear) :
    backScan oracle targetYear fuel d = some (d + 1) := by
  cases fuel with
  | zero => simp [backScan, h]
  | succ n => simp [backScan, h]

theorem backScan_spec (oracle : Int → HijriParts) (targetYear : Int) :
    ∀ (fuel : Nat) (d r : Int), (oracle d).year = targetYear →
      backScan oracle targetYear fuel d = some r →
      (oracle r).year = targetYear ∧ (oracle (r - 1)).year ≠ targetYear := by
  intro fuel
  induction fuel with
  | zero =>
    intro d r hd h
    simp [backScan, hd] at h
  | succ n ih =>
    intro d r hd h
    simp only [backScan, if_pos hd] at h
    by_cases hprev : (oracle (d - 1)).year = targetYear
    · exact ih (d - 1) r hprev h
    · rw [backScan_of_ne oracle targetYear n (d - 1) hprev] at h
      have hr : d - 1 + 1 = r := Option.some.inj h
      have hr2 : r = d := by omega
      rw [hr2]
      exact ⟨hd, hprev⟩

theorem getHijriYearStart_spec (oracle : Int → HijriParts) (fuel : Nat)
    (targetYear anchor r : Int)
    (h : getHijriYearStart oracle fuel targetYear anchor = some r) :
    (oracle r).year = targetYear ∧ (oracle (r - 1)).year ≠ targetYear := by
  unfold getHijriYearStart at h
  cases hg : getDateInHijriYear oracle fuel targetYear anchor with
  | none => rw [hg] at h; cases h
  | some g =>
    rw [hg] at h
    exact backScan_spec oracle targetYear fuel g r
      (getDateInHijriYear_year oracle fuel targetYear anchor g hg) h

theorem toy_boundary : ∀ d : Int,
    (toyOracle d).year ≠ (toyOracle (d + 1)).year →
    toyOracle (d + 1) = ⟨1, 1, (toyOracle d).year + 1⟩ := by
  intro d h
  simp only [toyOracle, HijriParts.mk.injEq] at *
  omega

theorem toy_year_mono : ∀ d : Int,
    (toyOracle d).year ≤ (toyOracle (d + 1)).year := by
  intro d; simp only [toyOracle]; omega

theorem toy_month_mono : ∀ d : Int,
    (toyOracle d).year = (toyOracle (d + 1)).year →
    (toyOracle d).month ≤ (toyOracle (d + 1)).month := by
  intro d h; simp only [toyOracle] at *; omega

theorem toy_newmonth : ∀ d : Int,
    (toyOracle d).year = (toyOracle (d + 1)).year →
    (toyOracle d).month ≠ (toyOracle (d + 1)).month →
    (toyOracle (d + 1)).day = 1 := by
  intro d h1 h2; simp only [toyOracle] at *; omega

theorem yearStart_parts (oracle : Int → HijriParts) (fuel : Nat)
    (targetYear anchor r : Int) (hb : YearBoundary oracle)
    (h : getHijriYearStart oracle fuel targetYear anchor = some r) :
    oracle r = ⟨1, 1, targetYear⟩ ∧
      (oracle (r - 1)).year = targetYear - 1 := by
  obtain ⟨hy, hprev⟩ := getHijriYearStart_spec oracle fuel targetYear anchor r h
  have hstep : r - 1 + 1 = r := by omega
  have hne : (oracle (r - 1)).year ≠ (oracle (r - 1 + 1)).year := by
    rw [hstep, hy]; exact hprev
  have heq := hb (r - 1) hne
  rw [hstep] at heq
  have hyy : (oracle (r - 1)).year + 1 = targetYear := by
    have hz : (oracle r).year = (oracle (r - 1)).year + 1 := by rw [heq]
    omega
  constructor
  · rw [heq, hyy]
  · omega

/-- C1: for every Hijri year `Y` and anchor date, if the oracle is
well-formed at year boundaries (`YearBoundary`) and the resolver's scans
terminate (`some r`), then `getHijriYearStart` returns a date that the
oracle converts to `{day: 1, month: 1, year: Y}`, and the day immediately
before it converts to Hijri year `Y - 1`. -/
theorem c1_yearStart_first_day (oracle : Int → HijriParts) (fuel : Nat)
    (targetYear anchor r : Int) (hb : YearBoundary oracle)
    (h : getHijriYearStart oracle fuel targetYear anchor = some r) :
    oracle r = ⟨1, 1, targetYear⟩ ∧
      (oracle (r - 1)).year = targetYear - 1 :=
  yearStart_parts oracle fuel targetYear anchor r hb h

/-- C1 witness: on the concrete 354-day toy calendar, the start of Hijri
year 3 resolved from anchor 0 is day 708, and it is day 1 of month 1 of
year 3 while the preceding day is in year 2. -/
theorem c1_witness :
    toyOracle 708 = ⟨1, 1, 3⟩ ∧ (toyOracle (708 - 1)).year = 3 - 1 :=
  c1_yearStart_first_day toyOracle 400 3 0 708 toy_boundary (by decide)

theorem scanToYear_stuck : ∀ (fuel : Nat) (d : Int),
    scanToYear stuckOracle 2 1 fuel d = none := by
  intro fuel
  induction fuel with
  | zero => intro d; simp [scanToYear, stuckOracle]
  | succ n ih => intro d; simp [scanToYear, stuckOracle, ih]

/-- C4: the claim asserts every boundary-scan loop is capped and fails
loudly for every oracle.  The source's loops are uncapped `while` loops:
with an oracle that constantly reports Hijri year 1 and target year 2, no
amount of fuel ever makes `getHijriYearStart` exit, i.e. the real loop in
`getDateInHijriYear` runs forever. -/
theorem c4_scan_not_capped : ¬ YearStartTerminates stuckOracle 2 0 := by
  rintro ⟨fuel, hterm⟩
  unfold getHijriYearStart getDateInHijriYear at hterm
  simp [stuckOracle, scanToYear_stuck] at hterm

theorem hijriParts_eq (p : HijriParts) (a b c : Int)
    (hd : p.day = a) (hm : p.month = b) (hy : p.year = c) : p = ⟨a, b, c⟩ := by
  cases p; simp_all

/-- One iteration body of the `hijriYearData` recording loop (part_000
lines 105-108): if the oracle reports day 1 of a month whose slot is still
empty, record the cursor date in that month's slot.  A month number outside
1..12 leaves all twelve slots unchanged, as the corresponding JS index
write does. -/
def updSlot (parts : HijriParts) (cursor : Int)
    (acc : List (Option Int)) : List (Option Int) :=
  if parts.day = 1 ∧ 1 ≤ parts.month ∧ parts.month ≤ 12 ∧
      acc.getD (parts.month - 1).toNat none = none then
    acc.set (parts.month - 1).toNat (some cursor)
  else acc

/-- The `while (getHijriParts(cursor).year === selectedYear)` loop of
`hijriYearData` (part_000 lines 104-110), fueled. -/
def monthScan (oracle : Int → HijriParts) (selectedYear : Int) :
    Nat → Int → List (Option Int) → Option (List (Option Int))
  | 0, cursor, acc =>
    if (oracle cursor).year = selectedYear then none else some acc
  | n + 1, cursor, acc =>
    if (oracle cursor).year = selectedYear then
      monthScan oracle selectedYear n (cursor + 1)
        (updSlot (oracle cursor) cursor acc)
    else some acc

/-- `hijriYearData` (part_000 lines 99-120), labels omitted: resolve the
year start, then record the twelve month-start slots in one pass over the
Hijri year. -/
def hijriYearData (oracle : Int → HijriParts) (fuel : Nat)
    (selectedYear anchor : Int) : Option (Int × List (Option Int)) :=
  match getHijriYearStart oracle fuel selectedYear anchor with
  | none => none
  | some yearStart =>
    (monthScan oracle selectedYear fuel yearStart
        (List.replicate 12 none)).map (fun ms => (yearStart, ms))

/-- Every day in `[lo, hi)` converts to Hijri year `Y`. -/
def SegY (oracle : Int → HijriParts) (Y lo hi : Int) : Prop :=
  ∀ d : Int, lo ≤ d → d < hi → (oracle d).year = Y

/-- Every recorded month-start slot holds a date in `[lo, hi)` on which the
oracle reports day 1 of the month the slot stands for. -/
def SlotsOK (oracle : Int → HijriParts) (lo hi : Int)
    (acc : List (Option Int)) : Prop :=
  ∀ (i : Nat) (c : Int), acc[i]? = some (some c) →
    lo ≤ c ∧ c < hi ∧ (oracle c).day = 1 ∧ (oracle c).month = (i : Int) + 1

/-- Every day-1 observation in `[lo, hi)` has its month's slot filled with a
date no later than the observation. -/
def SlotsComplete (oracle : Int → HijriParts) (lo hi : Int)
    (acc : List (Option Int)) : Prop :=
  ∀ d : Int, lo ≤ d → d < hi → (oracle d).day = 1 →
    1 ≤ (oracle d).month → (oracle d).month ≤ 12 →
    ∃ c : Int, acc[((oracle d).month - 1).toNat]? = some (some c) ∧ c ≤ d

theorem updSlot_length (parts : HijriParts) (cursor : Int)
    (acc : List (Option Int)) : (updSlot parts cursor acc).length = acc.length := by
  unfold updSlot
  split
  · exact List.length_set acc _ _
  · rfl

theorem updSlot_preserve (parts : HijriParts) (cursor : Int)
    (acc : List (Option Int)) (i : Nat) (x : Int)
    (h : acc[i]? = some (some x)) :
    (updSlot parts cursor acc)[i]? = some (some x) := by
  unfold updSlot
  split
  · rename_i hc
    by_cases hik : (parts.month - 1).toNat = i
    · subst hik
      have : acc.getD (parts.month - 1).toNat none = some x := by
        rw [List.getD_eq_getElem?_getD, h]; rfl
      rw [hc.2.2.2] at this
      cases this
    · rw [List.getElem?_set_ne hik]
      exact h
  · exact h

theorem updSlot_cases (parts : HijriParts) (cursor : Int)
    (acc : List (Option Int)) (hlen : acc.length = 12) (i : Nat) (x : Int)
    (h : (updSlot parts cursor acc)[i]? = some (some x)) :
    acc[i]? = some (some x) ∨
      (x = cursor ∧ parts.day = 1 ∧ 1 ≤ parts.month ∧ parts.month ≤ 12 ∧
        (parts.month - 1).toNat = i) := by
  unfold updSlot at h
  split at h
  · rename_i hc
    by_cases hik : (parts.month - 1).toNat = i
    · subst hik
      have hlt : (parts.month - 1).toNat < acc.length := by
        rw [hlen]; omega
      rw [List.getElem?_set_eq_of_lt _ hlt] at h
      have hx : x = cursor := by
        have := Option.some.inj h
        exact (Option.some.inj this).symm
      exact Or.inr ⟨hx, hc.1, hc.2.1, hc.2.2.1, rfl⟩
    · rw [List.getElem?_set_ne hik] at h
      exact Or.inl h
  · exact Or.inl h

theorem updSlot_hit (parts : HijriParts) (cursor : Int)
    (acc : List (Option Int)) (hlen : acc.length = 12)
    (hd : parts.day = 1) (h1 : 1 ≤ parts.month) (h2 : parts.month ≤ 12) :
    ∃ x : Int, (updSlot parts cursor acc)[(parts.month - 1).toNat]? =
        some (some x) ∧ (x = cursor ∨ acc[(parts.month - 1).toNat]? = some (some x)) := by
  have hlt : (parts.month - 1).toNat < acc.length := by rw [hlen]; omega
  by_cases hempty : acc.getD (parts.month - 1).toNat none = none
  · refine ⟨cursor, ?_, Or.inl rfl⟩
    unfold updSlot
    rw [if_pos ⟨hd, h1, h2, hempty⟩]
    exact List.getElem?_set_eq_of_lt _ hlt
  · cases hv2 : acc[(parts.month - 1).toNat]? with
    | none =>
      exfalso
      rw [List.getElem?_eq_none_iff] at hv2
      omega
    | some v =>
      cases v with
      | none =>
        exfalso
        apply hempty
        rw [List.getD_eq_getElem?_getD, hv2]
        rfl
      | some x =>
        refine ⟨x, ?_, Or.inr rfl⟩
        unfold updSlot
        rw [if_neg ?_]
        · exact hv2
        · intro hc
          apply hempty
          exact hc.2.2.2

theorem monthScan_inv (oracle : Int → HijriParts) (Y : Int) :
    ∀ (fuel : Nat) (cursor : Int) (acc out : List (Option Int)),
      monthScan oracle Y fuel cursor acc = some out →
      ∀ lo : Int, lo ≤ cursor →
        SegY oracle Y lo cursor →
        SlotsOK oracle lo cursor acc →
        SlotsComplete oracle lo cursor acc →
        acc.length = 12 →
        ∃ hi : Int, cursor ≤ hi ∧ (oracle hi).year ≠ Y ∧
          SegY oracle Y lo hi ∧ SlotsOK oracle lo hi out ∧
          SlotsComplete oracle lo hi out ∧ out.length = 12 := by
  intro fuel
  induction fuel with
  | zero =>
    intro cursor acc out h lo hlo hseg hok hcomp hlen
    by_cases hy : (oracle cursor).year = Y
    · simp [monthScan, hy] at h
    · simp only [monthScan, if_neg hy] at h
      have hout : acc = out := Option.some.inj h
      subst hout
      exact ⟨cursor, le_refl _, hy, hseg, hok, hcomp, hlen⟩
  | succ n ih =>
    intro cursor acc out h lo hlo hseg hok hcomp hlen
    by_cases hy : (oracle cursor).year = Y
    · simp only [monthScan, if_pos hy] at h
      have hseg' : SegY oracle Y lo (cursor + 1) := by
        intro d hd1 hd2
        by_cases hd3 : d = cursor
        · rw [hd3]; exact hy
        · exact hseg d hd1 (by omega)
      have hok' : SlotsOK oracle lo (cursor + 1)
          (updSlot (oracle cursor) cursor acc) := by
        intro i c hc
        rcases updSlot_cases (oracle cursor) cursor acc hlen i c hc with
          hold | ⟨hc1, hc2, hc3, hc4, hc5⟩
        · obtain ⟨g1, g2, g3, g4⟩ := hok i c hold
          exact ⟨g1, by omega, g3, g4⟩
        · have hmn : ((i : Int)) = (oracle cursor).month - 1 := by
            rw [← hc5]
            exact Int.toNat_of_nonneg (by omega)
          rw [hc1]
          exact ⟨hlo, by omega, hc2, by omega⟩
      have hcomp' : SlotsComplete oracle lo (cursor + 1)
          (updSlot (oracle cursor) cursor acc) := by
        intro d hd1 hd2 hday hm1 hm2
        by_cases hd3 : d = cursor
        · subst hd3
          obtain ⟨x, hx1, hx2⟩ :=
            updSlot_hit (oracle d) d acc hlen hday hm1 hm2
          refine ⟨x, hx1, ?_⟩
          rcases hx2 with hx2 | hx2
          · omega
          · exact le_of_lt (hok _ x hx2).2.1
        · obtain ⟨c, hc1, hc2⟩ := hcomp d hd1 (by omega) hday hm1 hm2
          exact ⟨c, updSlot_preserve (oracle cursor) cursor acc _ c hc1, hc2⟩
      have hlen' : (updSlot (oracle cursor) cursor acc).length = 12 := by
        rw [updSlot_length]; exact hlen
      obtain ⟨hi, g1, g2, g3, g4, g5, g6⟩ :=
        ih (cursor + 1) (updSlot (oracle cursor) cursor acc) out h lo
          (by omega) hseg' hok' hcomp' hlen'
      exact ⟨hi, by omega, g2, g3, g4, g5, g6⟩
    · simp only [monthScan, if_neg hy] at h
      have hout : acc = out := Option.some.inj h
      subst hout
      exact ⟨cursor, le_refl _, hy, hseg, hok, hcomp, hlen⟩

theorem seg_month_le (oracle : Int → HijriParts) (Y : Int)
    (hm : MonthMono oracle) (lo hi : Int) (hseg : SegY oracle Y lo hi) :
    ∀ a b : Int, lo ≤ a → a ≤ b → b < hi →
      (oracle a).month ≤ (oracle b).month := by
  intro a b ha hab hbh
  have key : ∀ n : Int, a ≤ n → n < hi → (oracle a).month ≤ (oracle n).month := by
    intro n hn
    refine @Int.le_induction
      (fun n => n < hi → (oracle a).month ≤ (oracle n).month) a ?_ ?_ n hn
    · intro _; exact le_refl _
    · intro k hk ihk hk2
      have h1 : (oracle k).year = Y := hseg k (by omega) (by omega)
      have h2 : (oracle (k + 1)).year = Y := hseg (k + 1) (by omega) (by omega)
      exact le_trans (ihk (by omega)) (hm k (h1.trans h2.symm))
  exact key b hab hbh

/-- C2: for every resolved Hijri year `Y` (the oracle being month-monotone
within a year), the `monthStarts` slots that are present hold strictly
increasing Gregorian dates, and slot `i` converts via the oracle to
`{day: 1, month: i+1, year: Y}`. -/
theorem c2_monthStarts_spec (oracle : Int → HijriParts) (fuel : Nat)
    (Y anchor ys : Int) (ms : List (Option Int)) (hm : MonthMono oracle)
    (h : hijriYearData oracle fuel Y anchor = some (ys, ms)) :
    ms.length = 12 ∧
      (∀ (i : Nat) (c : Int), ms[i]? = some (some c) →
        oracle c = ⟨1, (i : Int) + 1, Y⟩) ∧
      (∀ (i j : Nat) (ci cj : Int), i < j → ms[i]? = some (some ci) →
        ms[j]? = some (some cj) → ci < cj) := by
  unfold hijriYearData at h
  cases hys : getHijriYearStart oracle fuel Y anchor with
  | none => rw [hys] at h; cases h
  | some ys0 =>
    rw [hys] at h
    replace h : Option.map (fun ms => (ys0, ms))
        (monthScan oracle Y fuel ys0 (List.replicate 12 none)) =
        some (ys, ms) := h
    cases hscan : monthScan oracle Y fuel ys0 (List.replicate 12 none) with
    | none => rw [hscan] at h; cases h
    | some ms0 =>
      rw [hscan] at h
      simp only [Option.map_some'] at h
      rw [Option.some_inj, Prod.mk.injEq] at h
      obtain ⟨h1, h2⟩ := h
      subst h1
      subst h2
      obtain ⟨hi, hcur, hyne, hseg, hok, hcomp, hlen⟩ :=
        monthScan_inv oracle Y fuel ys0 (List.replicate 12 none) ms0 hscan
          ys0 (le_refl _)
          (by intro d g1 g2; exact absurd g2 (by omega))
          (by
            intro i c hc
            rw [List.getElem?_replicate] at hc
            split at hc <;> simp_all)
          (by intro d g1 g2 _ _ _; exact absurd g2 (by omega))
          (List.length_replicate 12 none)
      refine ⟨hlen, ?_, ?_⟩
      · intro i c hc
        obtain ⟨g1, g2, g3, g4⟩ := hok i c hc
        exact hijriParts_eq _ _ _ _ g3 g4 (hseg c g1 g2)
      · intro i j ci cj hij hci hcj
        obtain ⟨a1, a2, a3, a4⟩ := hok i ci hci
        obtain ⟨b1, b2, b3, b4⟩ := hok j cj hcj
        by_contra hle
        have hcj_ci : cj ≤ ci := by omega
        have := seg_month_le oracle Y hm ys0 hi hseg cj ci b1 hcj_ci a2
        rw [a4, b4] at this
        have : (j : Int) + 1 ≤ (i : Int) + 1 := this
        omega

/-- The twelve month-start dates the scan records for toy Hijri year 2. -/
def toyMS : List (Option Int) :=
  [some 354, some 384, some 414, some 444, some 474, some 504, some 534,
   some 564, some 594, some 624, some 654, some 684]

set_option maxRecDepth 4000 in
/-- C2 witness: running the year scan on the toy calendar for year 2 fills
all twelve slots; slot 1 converts to day 1 of month 2 of year 2 and lies
strictly after slot 0. -/
theorem c2_witness :
    toyMS.length = 12 ∧ toyOracle 384 = ⟨1, ((1 : Nat) : Int) + 1, 2⟩ ∧
      (354 : Int) < 384 := by
  obtain ⟨h1, h2, h3⟩ := c2_monthStarts_spec toyOracle 400 2 0 354 toyMS
    toy_month_mono (by decide)
  exact ⟨h1, h2 1 384 (by decide), h3 0 1 354 384 (by decide) (by decide)
    (by decide)⟩

/-- A JS number as produced by the progress computation: either `NaN`
(from `0/0` when a habit list is empty) or an integer percentage. -/
inductive JSNum where
  | nan : JSNum
  | val : Int → JSNum
deriving DecidableEq

/-- The per-group progress computation of `monthlyHijriData` (part_000
lines 158-163 and 166-171): `Math.round((completed / habitNames.length) *
100)`.  With an empty name list JS evaluates `Math.round((0/0)*100) = NaN`;
otherwise `Math.round` of the nonnegative rational `100*completed/len`
rounds halves up, which is the integer `(200*completed + len) / (2*len)`. -/
def progressOf (record : String → Bool) (habitNames : List String) : JSNum :=
  let completed := (habitNames.filter record).length
  if habitNames.length = 0 then JSNum.nan
  else JSNum.val (((200 * completed + habitNames.length) /
    (2 * habitNames.length) : Nat))

/-- The progress formula as the spec words it: `round(100 * count(true
among names) / len(names))`, rounding to the nearest integer (halves up,
as `Math.round` does). -/
def specProgress (record : String → Bool) (names : List String) : Nat :=
  (200 * (names.filter record).length + names.length) / (2 * names.length)

/-- One entry of `monthlyHijriData.days` (part_000 lines 139-145 and
175-181). -/
structure CalendarDay where
  date : Int
  hijriDay : Int
  hijriMonth : Int
  requiredProgress : Option JSNum
  optionalProgress : Option JSNum
deriving DecidableEq

/-- One iteration of the day loop of `monthlyHijriData` (part_000 lines
151-181): read the day's Hijri parts, look up its habit record, and fill
the two progress values.  `requiredProgress` is computed whenever a record
exists (with no emptiness guard on `mainHabits`); `optionalProgress` only
when `optionalHabits.length > 0`. -/
def mkCalendarDay (oracle : Int → HijriParts)
    (getHabitsForDate : Int → Option (String → Bool))
    (mainHabits optionalHabits : List String) (current : Int) : CalendarDay :=
  let p := oracle current
  match getHabitsForDate current with
  | none => ⟨current, p.day, p.month, none, none⟩
  | some habitsForDay =>
    ⟨current, p.day, p.month,
      some (progressOf habitsForDay mainHabits),
      if 0 < optionalHabits.length then
        some (progressOf habitsForDay optionalHabits)
      else none⟩

/-- JS array indexing `monthStarts[i]` with a possibly out-of-range index:
`undefined` (here `none`) outside the twelve slots. -/
def jsIndex (monthStarts : List (Option Int)) (i : Int) : Option Int :=
  if 0 ≤ i then monthStarts.getD i.toNat none else none

/-- `selectedMonthStart` (part_000 lines 122-123):
`hijriYearData.monthStarts[selectedMonth] || hijriYearData.yearStart`. -/
def selectedMonthStart (monthStarts : List (Option Int)) (yearStart : Int)
    (selectedMonth : Int) : Int :=
  (jsIndex monthStarts selectedMonth).getD yearStart

/-- The range-end computation of `monthlyHijriData` (part_000 lines
128-137): the day before the next month's start when that slot exists,
otherwise the day before the next Hijri year's start. -/
def monthRangeEnd (oracle : Int → HijriParts) (fuel : Nat)
    (monthStarts : List (Option Int))
    (selectedYear selectedMonth rangeStart : Int) : Option Int :=
  match jsIndex monthStarts (selectedMonth + 1) with
  | some nextMonthStart => some (nextMonthStart - 1)
  | none =>
    (getHijriYearStart oracle fuel (selectedYear + 1) rangeStart).map
      (fun nextYearStart => nextYearStart - 1)

/-- The day-enumeration loop of `monthlyHijriData` (part_000 lines
147-182): `for (current = rangeStart; current <= rangeEnd; current += 1
day) days.push(...)`. -/
def buildDaysAux (mk : Int → CalendarDay) :
    Nat → Int → Int → List CalendarDay
  | 0, _, _ => []
  | n + 1, current, rangeEnd =>
    if current ≤ rangeEnd then
      mk current :: buildDaysAux mk n (current + 1) rangeEnd
    else []

def buildDays (mk : Int → CalendarDay) (current rangeEnd : Int) :
    List CalendarDay :=
  buildDaysAux mk (rangeEnd + 1 - current).toNat current rangeEnd

/-- `monthlyHijriData` (part_000 lines 125-196), weekday offset and labels
omitted: one `CalendarDay` per Gregorian day from the selected month's
start to its range end. -/
def monthlyHijriData (oracle : Int → HijriParts) (fuel : Nat)
    (getHabitsForDate : Int → Option (String → Bool))
    (mainHabits optionalHabits : List String)
    (monthStarts : List (Option Int)) (yearStart : Int)
    (selectedYear selectedMonth : Int) : Option (List CalendarDay) :=
  (monthRangeEnd oracle fuel monthStarts selectedYear selectedMonth
      (selectedMonthStart monthStarts yearStart selectedMonth)).map
    (fun rangeEnd =>
      buildDays
        (mkCalendarDay oracle getHabitsForDate mainHabits optionalHabits)
        (selectedMonthStart monthStarts yearStart selectedMonth) rangeEnd)

theorem buildDaysAux_spec (mk : Int → CalendarDay) :
    ∀ (n : Nat) (s e : Int), (e + 1 - s).toNat = n →
      buildDaysAux mk n s e =
        (List.range n).map (fun k : Nat => mk (s + (k : Int))) := by
  intro n
  induction n with
  | zero =>
    intro s e hn
    simp [buildDaysAux]
  | succ m ih =>
    intro s e hn
    rw [buildDaysAux]
    rw [if_pos (by omega)]
    rw [ih (s + 1) e (by omega)]
    rw [List.range_succ_eq_map]
    simp only [List.map_cons, List.map_map, Nat.cast_zero, add_zero]
    congr 1
    apply List.map_congr_left
    intro k _
    simp only [Function.comp_apply]
    congr 1
    push_cast
    ring

theorem buildDays_spec (mk : Int → CalendarDay) (n : Nat) (s e : Int)
    (hn : (e + 1 - s).toNat = n) :
    buildDays mk s e =
      (List.range n).map (fun k : Nat => mk (s + (k : Int))) := by
  unfold buildDays
  rw [hn]
  exact buildDaysAux_spec mk n s e hn

theorem mem_buildDays (mk : Int → CalendarDay) (s e t : Int)
    (h1 : s ≤ t) (h2 : t ≤ e) : mk t ∈ buildDays mk s e := by
  rw [buildDays_spec mk (e + 1 - s).toNat s e rfl]
  rw [List.mem_map]
  refine ⟨(t - s).toNat, ?_, ?_⟩
  · rw [List.mem_range]; omega
  · congr 1; omega

theorem buildDays_mem_inv (mk : Int → CalendarDay) (s e : Int)
    (cd : CalendarDay) (h : cd ∈ buildDays mk s e) :
    ∃ t : Int, s ≤ t ∧ t ≤ e ∧ cd = mk t := by
  rw [buildDays_spec mk (e + 1 - s).toNat s e rfl, List.mem_map] at h
  obtain ⟨k, hk, hcd⟩ := h
  rw [List.mem_range] at hk
  exact ⟨s + (k : Int), by omega, by omega, hcd.symm⟩

/-- C3: the month grid enumerates exactly the Gregorian days from the
selected month's start through the day before the next month's start when
that slot exists, and otherwise through the day before the next Hijri
year's resolved start — inclusive, in order, with one `CalendarDay` per
Gregorian day. -/
theorem c3_grid_enumerates (oracle : Int → HijriParts) (fuel : Nat)
    (getHabitsForDate : Int → Option (String → Bool))
    (mainHabits optionalHabits : List String)
    (monthStarts : List (Option Int))
    (yearStart selectedYear selectedMonth : Int) (days : List CalendarDay)
    (h : monthlyHijriData oracle fuel getHabitsForDate mainHabits
      optionalHabits monthStarts yearStart selectedYear selectedMonth =
      some days) :
    (∀ nms : Int, jsIndex monthStarts (selectedMonth + 1) = some nms →
      days = (List.range (nms - selectedMonthStart monthStarts yearStart
          selectedMonth).toNat).map
        (fun k : Nat => mkCalendarDay oracle getHabitsForDate mainHabits
          optionalHabits (selectedMonthStart monthStarts yearStart
            selectedMonth + (k : Int)))) ∧
    (jsIndex monthStarts (selectedMonth + 1) = none →
      ∀ nys : Int, getHijriYearStart oracle fuel (selectedYear + 1)
          (selectedMonthStart monthStarts yearStart selectedMonth) =
          some nys →
      days = (List.range (nys - selectedMonthStart monthStarts yearStart
          selectedMonth).toNat).map
        (fun k : Nat => mkCalendarDay oracle getHabitsForDate mainHabits
          optionalHabits (selectedMonthStart monthStarts yearStart
            selectedMonth + (k : Int)))) := by
  unfold monthlyHijriData at h
  constructor
  · intro nms hnms
    have hre : monthRangeEnd oracle fuel monthStarts selectedYear
        selectedMonth (selectedMonthStart monthStarts yearStart
          selectedMonth) = some (nms - 1) := by
      unfold monthRangeEnd
      rw [hnms]
    rw [hre, Option.map_some'] at h
    have hd : buildDays (mkCalendarDay oracle getHabitsForDate mainHabits
        optionalHabits) (selectedMonthStart monthStarts yearStart
          selectedMonth) (nms - 1) = days := Option.some.inj h
    have hspec := buildDays_spec
      (mkCalendarDay oracle getHabitsForDate mainHabits optionalHabits)
      (nms - 1 + 1 - selectedMonthStart monthStarts yearStart
        selectedMonth).toNat
      (selectedMonthStart monthStarts yearStart selectedMonth) (nms - 1) rfl
    rw [show nms - 1 + 1 - selectedMonthStart monthStarts yearStart
        selectedMonth = nms - selectedMonthStart monthStarts yearStart
        selectedMonth from by omega] at hspec
    rw [← hd, hspec]
  · intro hnone nys hnys
    have hre : monthRangeEnd oracle fuel monthStarts selectedYear
        selectedMonth (selectedMonthStart monthStarts yearStart
          selectedMonth) = some (nys - 1) := by
      unfold monthRangeEnd
      rw [hnone, hnys, Option.map_some']
    rw [hre, Option.map_some'] at h
    have hd : buildDays (mkCalendarDay oracle getHabitsForDate mainHabits
        optionalHabits) (selectedMonthStart monthStarts yearStart
          selectedMonth) (nys - 1) = days := Option.some.inj h
    have hspec := buildDays_spec
      (mkCalendarDay oracle getHabitsForDate mainHabits optionalHabits)
      (nys - 1 + 1 - selectedMonthStart monthStarts yearStart
        selectedMonth).toNat
      (selectedMonthStart monthStarts yearStart selectedMonth) (nys - 1) rfl
    rw [show nys - 1 + 1 - selectedMonthStart monthStarts yearStart
        selectedMonth = nys - selectedMonthStart monthStarts yearStart
        selectedMonth from by omega] at hspec
    rw [← hd, hspec]

/-- A record lookup that has no record for any date. -/
def noRecLookup : Int → Option (String → Bool) := fun _ => none

/-- A tiny two-slot month-start list exercising the grid builder. -/
def msSmall : List (Option Int) :=
  [some 0, some 2, none, none, none, none, none, none, none, none, none,
   none]

/-- C3 witness: on the toy calendar with month starts at days 0 and 2,
month 0 of the grid is exactly the two days 0 and 1, in order. -/
theorem c3_witness :
    ([⟨0, 1, 1, none, none⟩, ⟨1, 2, 1, none, none⟩] : List CalendarDay) =
      (List.range ((2 : Int) - selectedMonthStart msSmall 0 0).toNat).map
        (fun k : Nat => mkCalendarDay toyOracle noRecLookup [] []
          (selectedMonthStart msSmall 0 0 + (k : Int))) :=
  (c3_grid_enumerates toyOracle 0 noRecLookup [] [] msSmall 0 1 0
    [⟨0, 1, 1, none, none⟩, ⟨1, 2, 1, none, none⟩] (by decide)).1 2
    (by decide)

theorem mkCalendarDay_date (oracle : Int → HijriParts)
    (getHabitsForDate : Int → Option (String → Bool))
    (mainHabits optionalHabits : List String) (t : Int) :
    (mkCalendarDay oracle getHabitsForDate mainHabits optionalHabits
      t).date = t := by
  unfold mkCalendarDay
  cases getHabitsForDate t <;> rfl

theorem mkCalendarDay_none (oracle : Int → HijriParts)
    (getHabitsForDate : Int → Option (String → Bool))
    (mainHabits optionalHabits : List String) (t : Int)
    (h : getHabitsForDate t = none) :
    mkCalendarDay oracle getHabitsForDate mainHabits optionalHabits t =
      ⟨t, (oracle t).day, (oracle t).month, none, none⟩ := by
  unfold mkCalendarDay
  rw [h]

theorem mkCalendarDay_some (oracle : Int → HijriParts)
    (getHabitsForDate : Int → Option (String → Bool))
    (mainHabits optionalHabits : List String) (t : Int)
    (record : String → Bool) (h : getHabitsForDate t = some record) :
    mkCalendarDay oracle getHabitsForDate mainHabits optionalHabits t =
      ⟨t, (oracle t).day, (oracle t).month,
        some (progressOf record mainHabits),
        if 0 < optionalHabits.length then
          some (progressOf record optionalHabits)
        else none⟩ := by
  unfold mkCalendarDay
  rw [h]

theorem monthly_mem_form (oracle : Int → HijriParts) (fuel : Nat)
    (getHabitsForDate : Int → Option (String → Bool))
    (mainHabits optionalHabits : List String)
    (monthStarts : List (Option Int))
    (yearStart selectedYear selectedMonth : Int) (days : List CalendarDay)
    (cd : CalendarDay)
    (h : monthlyHijriData oracle fuel getHabitsForDate mainHabits
      optionalHabits monthStarts yearStart selectedYear selectedMonth =
      some days)
    (hcd : cd ∈ days) :
    ∃ t : Int, cd = mkCalendarDay oracle getHabitsForDate mainHabits
      optionalHabits t := by
  unfold monthlyHijriData at h
  cases hre : monthRangeEnd oracle fuel monthStarts selectedYear
      selectedMonth (selectedMonthStart monthStarts yearStart
        selectedMonth) with
  | none => rw [hre] at h; cases h
  | some re =>
    rw [hre, Option.map_some'] at h
    rw [← Option.some.inj h] at hcd
    obtain ⟨t, _, _, h3⟩ := buildDays_mem_inv _ _ _ cd hcd
    exact ⟨t, h3⟩

/-- A record lookup that has a record (with nothing completed) for every
date. -/
def emptyRecLookup : Int → Option (String → Bool) :=
  fun _ => some (fun _ => false)

/-- A month-start list whose first month is the single day 0. -/
def msTiny : List (Option Int) :=
  [some 0, some 1, none, none, none, none, none, none, none, none, none,
   none]

/-- C5 counterexample: on a one-day month with a record present and both
habit lists empty, the grid's required progress is `NaN` (not 0) and its
optional progress is absent (not 0). -/
theorem c5_counterexample :
    monthlyHijriData toyOracle 0 emptyRecLookup [] [] msTiny 0 1 0 =
      some [⟨0, 1, 1, some JSNum.nan, none⟩] ∧
    (emptyRecLookup 0).isSome = true ∧
    some JSNum.nan ≠ some (JSNum.val 0) ∧
    (none : Option JSNum) ≠ some (JSNum.val 0) := by
  refine ⟨by decide, by decide, by decide, by decide⟩

/-- C5 (amended): when a record exists for the day, an empty required list
yields `requiredProgress = NaN` (JS `Math.round((0/0)*100)`), and an empty
optional list leaves `optionalProgress` absent — in neither case 0. -/
theorem c5_empty_names_amended (oracle : Int → HijriParts) (fuel : Nat)
    (getHabitsForDate : Int → Option (String → Bool))
    (mainHabits optionalHabits : List String)
    (monthStarts : List (Option Int))
    (yearStart selectedYear selectedMonth : Int) (days : List CalendarDay)
    (cd : CalendarDay)
    (h : monthlyHijriData oracle fuel getHabitsForDate mainHabits
      optionalHabits monthStarts yearStart selectedYear selectedMonth =
      some days)
    (hcd : cd ∈ days)
    (hrec : (getHabitsForDate cd.date).isSome = true) :
    (mainHabits = [] → cd.requiredProgress = some JSNum.nan) ∧
    (optionalHabits = [] → cd.optionalProgress = none) := by
  obtain ⟨t, h3⟩ := monthly_mem_form oracle fuel getHabitsForDate mainHabits
    optionalHabits monthStarts yearStart selectedYear selectedMonth days cd
    h hcd
  subst h3
  rw [mkCalendarDay_date] at hrec
  obtain ⟨record, hgh⟩ := Option.isSome_iff_exists.mp hrec
  rw [mkCalendarDay_some oracle getHabitsForDate mainHabits optionalHabits
    t record hgh]
  constructor
  · intro hmh
    subst hmh
    simp [progressOf]
  · intro hoh
    subst hoh
    simp

/-- C5 witness: on the concrete one-day month with a record and empty habit
lists, the required progress is `NaN` and the optional progress absent. -/
theorem c5_witness :
    ((⟨0, 1, 1, some JSNum.nan, none⟩ : CalendarDay).requiredProgress =
      some JSNum.nan) ∧
    ((⟨0, 1, 1, some JSNum.nan, none⟩ : CalendarDay).optionalProgress =
      none) := by
  obtain ⟨h1, h2⟩ := c5_empty_names_amended toyOracle 0 emptyRecLookup [] []
    msTiny 0 1 0 [⟨0, 1, 1, some JSNum.nan, none⟩]
    ⟨0, 1, 1, some JSNum.nan, none⟩ (by decide) (by decide) (by decide)
  exact ⟨h1 rfl, h2 rfl⟩

/-- The single day of the C6 counterexample grid: a record exists for its
date, yet `optionalProgress` is absent because the optional list is empty. -/
def c6Day : CalendarDay := ⟨0, 1, 1, some (JSNum.val 0), none⟩

/-- C6 counterexample: a grid day whose date has a record, with an empty
optional habit list, has `optionalProgress` absent — against the claim
that the value is absent exactly when no record exists. -/
theorem c6_counterexample :
    monthlyHijriData toyOracle 0 emptyRecLookup ["a"] [] msTiny 0 1 0 =
      some [c6Day] ∧
    ¬ ((c6Day.optionalProgress = none) ↔ emptyRecLookup 0 = none) := by
  constructor
  · decide
  · simp [emptyRecLookup, c6Day]

/-- C6 (amended): `requiredProgress` is absent iff no record exists for the
day's date; `optionalProgress` is absent iff no record exists **or the
optional habit list is empty**.  In particular, with a record present,
`requiredProgress` is always a number and `optionalProgress` is a number
exactly when the optional list is nonempty. -/
theorem c6_presence_amended (oracle : Int → HijriParts) (fuel : Nat)
    (getHabitsForDate : Int → Option (String → Bool))
    (mainHabits optionalHabits : List String)
    (monthStarts : List (Option Int))
    (yearStart selectedYear selectedMonth : Int) (days : List CalendarDay)
    (cd : CalendarDay)
    (h : monthlyHijriData oracle fuel getHabitsForDate mainHabits
      optionalHabits monthStarts yearStart selectedYear selectedMonth =
      some days)
    (hcd : cd ∈ days) :
    (cd.requiredProgress = none ↔ getHabitsForDate cd.date = none) ∧
    (cd.optionalProgress = none ↔
      (getHabitsForDate cd.date = none ∨ optionalHabits = [])) := by
  obtain ⟨t, h3⟩ := monthly_mem_form oracle fuel getHabitsForDate mainHabits
    optionalHabits monthStarts yearStart selectedYear selectedMonth days cd
    h hcd
  subst h3
  rw [mkCalendarDay_date]
  cases hgh : getHabitsForDate t with
  | none =>
    rw [mkCalendarDay_none oracle getHabitsForDate mainHabits
      optionalHabits t hgh]
    simp
  | some record =>
    rw [mkCalendarDay_some oracle getHabitsForDate mainHabits
      optionalHabits t record hgh]
    cases optionalHabits <;> simp

/-- C6 witness: a day without a record has both progress values absent, as
the amended presence criterion states. -/
theorem c6_witness :
    (((⟨0, 1, 1, none, none⟩ : CalendarDay).requiredProgress = none) ↔
      noRecLookup 0 = none) ∧
    (((⟨0, 1, 1, none, none⟩ : CalendarDay).optionalProgress = none) ↔
      (noRecLookup 0 = none ∨ ([] : List String) = [])) :=
  c6_presence_amended toyOracle 0 noRecLookup [] [] msSmall 0 1 0
    [⟨0, 1, 1, none, none⟩, ⟨1, 2, 1, none, none⟩] ⟨0, 1, 1, none, none⟩
    (by decide) (by decide)

theorem progressOf_eq_spec (record : String → Bool) (names : List String)
    (h : names ≠ []) :
    progressOf record names = JSNum.val (specProgress record names) := by
  unfold progressOf specProgress
  rw [if_neg (by simpa using h)]

theorem specProgress_le_100 (record : String → Bool) (names : List String)
    (h : names ≠ []) : specProgress record names ≤ 100 := by
  unfold specProgress
  have hc : (names.filter record).length ≤ names.length :=
    List.length_filter_le _ _
  have hl : 1 ≤ names.length := List.length_pos.mpr h
  have h2 : 200 * (names.filter record).length + names.length <
      101 * (2 * names.length) := by omega
  have h3 : (200 * (names.filter record).length + names.length) /
      (2 * names.length) < 101 :=
    (Nat.div_lt_iff_lt_mul (by omega)).mpr h2
  omega

/-- C7: for a grid day whose date has a record and a non-empty habit-name
list, the computed progress is exactly `round(100 * count(true among
names) / len(names))` (halves up) and lies in `[0, 100]` — for the
required group and for the optional group.  The value is a `Nat`, so the
lower bound 0 is implicit in the type. -/
theorem c7_progress_formula (oracle : Int → HijriParts) (fuel : Nat)
    (getHabitsForDate : Int → Option (String → Bool))
    (mainHabits optionalHabits : List String)
    (monthStarts : List (Option Int))
    (yearStart selectedYear selectedMonth : Int) (days : List CalendarDay)
    (cd : CalendarDay) (record : String → Bool)
    (h : monthlyHijriData oracle fuel getHabitsForDate mainHabits
      optionalHabits monthStarts yearStart selectedYear selectedMonth =
      some days)
    (hcd : cd ∈ days) (hrec : getHabitsForDate cd.date = some record) :
    (mainHabits ≠ [] →
      cd.requiredProgress = some (JSNum.val (specProgress record mainHabits)) ∧
      specProgress record mainHabits ≤ 100) ∧
    (optionalHabits ≠ [] →
      cd.optionalProgress =
        some (JSNum.val (specProgress record optionalHabits)) ∧
      specProgress record optionalHabits ≤ 100) := by
  obtain ⟨t, h3⟩ := monthly_mem_form oracle fuel getHabitsForDate mainHabits
    optionalHabits monthStarts yearStart selectedYear selectedMonth days cd
    h hcd
  subst h3
  rw [mkCalendarDay_date] at hrec
  rw [mkCalendarDay_some oracle getHabitsForDate mainHabits optionalHabits
    t record hrec]
  constructor
  · intro hmh
    exact ⟨congrArg some (progressOf_eq_spec record mainHabits hmh),
      specProgress_le_100 record mainHabits hmh⟩
  · intro hoh
    have hlen : 0 < optionalHabits.length := List.length_pos.mpr hoh
    refine ⟨?_, specProgress_le_100 record optionalHabits hoh⟩
    show (if 0 < optionalHabits.length then
        some (progressOf record optionalHabits) else none) =
      some (JSNum.val (specProgress record optionalHabits))
    rw [if_pos hlen]
    exact congrArg some (progressOf_eq_spec record optionalHabits hoh)

/-- A concrete record: only the habit named `a` is completed. -/
def recA : String → Bool := fun s => s == "a"

/-- A record lookup returning the `recA` record for every date. -/
def recLookupA : Int → Option (String → Bool) := fun _ => some recA

/-- The single day of the C7 witness grid. -/
def c7Day : CalendarDay := ⟨0, 1, 1, some (JSNum.val 33), some (JSNum.val 0)⟩

/-- C7 witness: with record `recA` and required habits `a`, `b`, `c`, the
one-day grid's required progress is `round(100/3) = 33`, within bounds. -/
theorem c7_witness :
    (c7Day.requiredProgress =
      some (JSNum.val (specProgress recA ["a", "b", "c"])) ∧
      specProgress recA ["a", "b", "c"] ≤ 100) ∧
    specProgress recA ["a", "b", "c"] = 33 := by
  refine ⟨?_, by decide⟩
  exact (c7_progress_formula toyOracle 0 recLookupA ["a", "b", "c"] ["b"]
    msTiny 0 1 0 [c7Day] c7Day recA (by decide) (by decide) rfl).1
    (by decide)

/-- `isWhiteDay` (part_000 lines 319-321, HijriMonthlyCalendar.tsx lines
297-299): Hijri day 13, 14 or 15 of any Hijri month other than month 9. -/
def isWhiteDay (hijriMonth hijriDay : Int) : Bool :=
  hijriMonth != 9 && (hijriDay == 13 || hijriDay == 14 || hijriDay == 15)

/-- C8: the white-day range tag is present exactly when the Hijri day is
13, 14 or 15 and the Hijri month is not 9; in particular (month 9, day 14)
carries no tag while (month 8, day 14) does. -/
theorem c8_white_days :
    (∀ hijriMonth hijriDay : Int,
      isWhiteDay hijriMonth hijriDay = true ↔
        ((hijriDay = 13 ∨ hijriDay = 14 ∨ hijriDay = 15) ∧
          hijriMonth ≠ 9)) ∧
    isWhiteDay 9 14 = false ∧ isWhiteDay 8 14 = true := by
  refine ⟨?_, by decide, by decide⟩
  intro m d
  simp [isWhiteDay]
  tauto

/-- One navigation action of the month/year picker. -/
inductive NavAction where
  | prevYear : NavAction
  | nextYear : NavAction
  | selectMonth : Int → NavAction

/-- The navigation cursor: selected Hijri year and 0-based month index. -/
structure NavState where
  selectedYear : Int
  selectedMonth : Int
deriving DecidableEq

/-- The state updates of the three picker buttons (part_000 lines 253-255,
271 and 284): previous year clamps at the floor
(`Math.max(minYear, year - 1)`), next year is unbounded, and selecting a
month leaves the year unchanged. -/
def navStep (minYear : Int) (s : NavState) : NavAction → NavState
  | NavAction.prevYear => ⟨max minYear (s.selectedYear - 1), s.selectedMonth⟩
  | NavAction.nextYear => ⟨s.selectedYear + 1, s.selectedMonth⟩
  | NavAction.selectMonth i => ⟨s.selectedYear, i⟩

/-- A sequence of navigation actions applied in order. -/
def navRun (minYear : Int) (s : NavState) (acts : List NavAction) :
    NavState :=
  acts.foldl (navStep minYear) s

/-- The initial navigation state (part_000 lines 93-96): today's Hijri
year, and today's Hijri month in 0-based form. -/
def initNav (oracle : Int → HijriParts) (today : Int) : NavState :=
  ⟨(oracle today).year, (oracle today).month - 1⟩

/-- C9: starting at or above the floor year, no sequence of navigation
actions takes `selectedYear` below the floor, and `prevYear` at the floor
leaves the state unchanged. -/
theorem c9_nav_floor (minYear : Int) (s : NavState) (acts : List NavAction)
    (h : minYear ≤ s.selectedYear) :
    minYear ≤ (navRun minYear s acts).selectedYear ∧
      (s.selectedYear = minYear →
        navStep minYear s NavAction.prevYear = s) := by
  constructor
  · induction acts generalizing s with
    | nil => exact h
    | cons a rest ih =>
      have hstep : minYear ≤ (navStep minYear s a).selectedYear := by
        cases a <;> simp [navStep] <;> omega
      exact ih (navStep minYear s a) hstep
  · intro hq
    cases s with
    | mk y m =>
      have hq2 : y = minYear := hq
      simp only [navStep, NavState.mk.injEq]
      exact ⟨by omega, trivial⟩

/-- C9 witness: with floor year 1446 and a concrete action sequence that
tries to go below it, the year stays at or above 1446, and `prevYear` at
1446 is a no-op. -/
theorem c9_witness :
    (1446 : Int) ≤ (navRun 1446 ⟨1446, 0⟩
      [NavAction.prevYear, NavAction.nextYear, NavAction.prevYear,
        NavAction.prevYear]).selectedYear ∧
      ((⟨1446, 0⟩ : NavState).selectedYear = 1446 →
        navStep 1446 ⟨1446, 0⟩ NavAction.prevYear = ⟨1446, 0⟩) :=
  c9_nav_floor 1446 ⟨1446, 0⟩
    [NavAction.prevYear, NavAction.nextYear, NavAction.prevYear,
      NavAction.prevYear] (by decide)

theorem year_chain (oracle : Int → HijriParts) (hy : YearMono oracle) :
    ∀ a b : Int, a ≤ b → (oracle a).year ≤ (oracle b).year := by
  intro a b hab
  refine @Int.le_induction
    (fun n => (oracle a).year ≤ (oracle n).year) a ?_ ?_ b hab
  · exact le_refl _
  · intro k _ ihk
    exact le_trans ihk (hy k)

theorem exists_day1 (oracle : Int → HijriParts) (Y ys hi : Int)
    (hnm : NewMonthDay1 oracle) (hseg : SegY oracle Y ys hi)
    (hday1 : (oracle ys).day = 1) :
    ∀ b : Int, ys ≤ b → b < hi →
      ∃ c : Int, ys ≤ c ∧ c ≤ b ∧ (oracle c).month = (oracle b).month ∧
        (oracle c).day = 1 := by
  intro b hb
  refine @Int.le_induction
    (fun b => b < hi → ∃ c : Int, ys ≤ c ∧ c ≤ b ∧
      (oracle c).month = (oracle b).month ∧ (oracle c).day = 1)
    ys ?_ ?_ b hb
  · intro _
    exact ⟨ys, le_refl _, le_refl _, rfl, hday1⟩
  · intro k hk ihk hk2
    by_cases hmn : (oracle k).month = (oracle (k + 1)).month
    · obtain ⟨c, g1, g2, g3, g4⟩ := ihk (by omega)
      exact ⟨c, g1, by omega, g3.trans hmn, g4⟩
    · have hyk : (oracle k).year = Y := hseg k hk (by omega)
      have hyk1 : (oracle (k + 1)).year = Y := hseg (k + 1) (by omega) hk2
      exact ⟨k + 1, by omega, le_refl _, rfl,
        hnm k (hyk.trans hyk1.symm) hmn⟩

theorem hijriYearData_parts (oracle : Int → HijriParts) (fuel : Nat)
    (Y anchor ys : Int) (ms : List (Option Int))
    (h : hijriYearData oracle fuel Y anchor = some (ys, ms)) :
    getHijriYearStart oracle fuel Y anchor = some ys ∧
      monthScan oracle Y fuel ys (List.replicate 12 none) = some ms := by
  unfold hijriYearData at h
  cases hys : getHijriYearStart oracle fuel Y anchor with
  | none => rw [hys] at h; cases h
  | some ys0 =>
    rw [hys] at h
    replace h : Option.map (fun ms => (ys0, ms))
        (monthScan oracle Y fuel ys0 (List.replicate 12 none)) =
        some (ys, ms) := h
    cases hscan : monthScan oracle Y fuel ys0 (List.replicate 12 none) with
    | none => rw [hscan] at h; cases h
    | some ms0 =>
      rw [hscan, Option.map_some'] at h
      rw [Option.some_inj, Prod.mk.injEq] at h
      obtain ⟨h1, h2⟩ := h
      subst h1
      subst h2
      exact ⟨rfl, hscan⟩

theorem monthScan_run (oracle : Int → HijriParts) (Y : Int) (fuel : Nat)
    (ys : Int) (ms : List (Option Int))
    (h : monthScan oracle Y fuel ys (List.replicate 12 none) = some ms) :
    ∃ hi : Int, ys ≤ hi ∧ (oracle hi).year ≠ Y ∧ SegY oracle Y ys hi ∧
      SlotsOK oracle ys hi ms ∧ SlotsComplete oracle ys hi ms ∧
      ms.length = 12 :=
  monthScan_inv oracle Y fuel ys (List.replicate 12 none) ms h ys
    (le_refl _)
    (by intro d g1 g2; exact absurd g2 (by omega))
    (by
      intro i c hc
      rw [List.getElem?_replicate] at hc
      split at hc <;> simp_all)
    (by intro d g1 g2 _ _ _; exact absurd g2 (by omega))
    (List.length_replicate 12 none)

theorem getD_of_getElem (l : List (Option Int)) (i : Nat) (c : Int)
    (h : l[i]? = some (some c)) : l.getD i none = some c := by
  rw [List.getD_eq_getElem?_getD, h]
  rfl

theorem getElem_of_getD (l : List (Option Int)) (i : Nat) (c : Int)
    (h : l.getD i none = some c) : l[i]? = some (some c) := by
  rw [List.getD_eq_getElem?_getD] at h
  cases hv : l[i]? with
  | none => rw [hv] at h; cases h
  | some v =>
    rw [hv] at h
    cases v with
    | none => cases h
    | some x =>
      have : x = c := Option.some.inj h
      rw [this]

theorem monthRangeEnd_next (oracle : Int → HijriParts) (fuel : Nat)
    (monthStarts : List (Option Int)) (Y m rs nms : Int)
    (h : jsIndex monthStarts (m + 1) = some nms) :
    monthRangeEnd oracle fuel monthStarts Y m rs = some (nms - 1) := by
  unfold monthRangeEnd
  rw [h]

theorem monthRangeEnd_wrap (oracle : Int → HijriParts) (fuel : Nat)
    (monthStarts : List (Option Int)) (Y m rs : Int)
    (h : jsIndex monthStarts (m + 1) = none) :
    monthRangeEnd oracle fuel monthStarts Y m rs =
      (getHijriYearStart oracle fuel (Y + 1) rs).map
        (fun nextYearStart => nextYearStart - 1) := by
  unfold monthRangeEnd
  rw [h]

/-- C10: on first render the navigation cursor is initialised to today's
Hijri year and today's 0-based Hijri month, and the grid built from that
cursor contains today.  Hypotheses: the oracle is calendar-like (year
boundaries land on day 1 of month 1 with the year incremented by one, year
and within-year month numbers are nondecreasing, within-year month changes
land on day 1), today's month number lies in 1..12, and the year scan and
month grid resolved (`some`). -/
theorem c10_initial_grid (oracle : Int → HijriParts) (fuel : Nat)
    (getHabitsForDate : Int → Option (String → Bool))
    (mainHabits optionalHabits : List String) (today ys : Int)
    (ms : List (Option Int)) (days : List CalendarDay)
    (hb : YearBoundary oracle) (hy : YearMono oracle)
    (hm : MonthMono oracle) (hnm : NewMonthDay1 oracle)
    (hmr : 1 ≤ (oracle today).month ∧ (oracle today).month ≤ 12)
    (hdata : hijriYearData oracle fuel (oracle today).year today =
      some (ys, ms))
    (hgrid : monthlyHijriData oracle fuel getHabitsForDate mainHabits
      optionalHabits ms ys (oracle today).year
      ((oracle today).month - 1) = some days) :
    initNav oracle today =
      ⟨(oracle today).year, (oracle today).month - 1⟩ ∧
    ∃ cd ∈ days, cd.date = today := by
  obtain ⟨hmr1, hmr2⟩ := hmr
  refine ⟨rfl, ?_⟩
  obtain ⟨hys, hscan⟩ := hijriYearData_parts oracle fuel (oracle today).year
    today ys ms hdata
  obtain ⟨hi, hcur, hyne, hseg, hok, hcomp, hlen⟩ :=
    monthScan_run oracle (oracle today).year fuel ys ms hscan
  obtain ⟨hys1, hysprev⟩ := yearStart_parts oracle fuel (oracle today).year
    today ys hb hys
  have hys_le : ys ≤ today := by
    by_contra hlt
    push_neg at hlt
    have := year_chain oracle hy today (ys - 1) (by omega)
    rw [hysprev] at this
    omega
  have hto_lt : today < hi := by
    by_contra hge
    push_neg at hge
    have h1 := year_chain oracle hy ys hi hcur
    have h2 := year_chain oracle hy hi today hge
    have h3 : (oracle ys).year = (oracle today).year := by rw [hys1]
    omega
  have hysday : (oracle ys).day = 1 := by rw [hys1]
  obtain ⟨cstar, hc1, hc2, hc3, hc4⟩ := exists_day1 oracle
    (oracle today).year ys hi hnm hseg hysday today hys_le hto_lt
  obtain ⟨c, hslot, hcle⟩ := hcomp cstar hc1 (by omega) hc4
    (by rw [hc3]; omega) (by rw [hc3]; omega)
  rw [hc3] at hslot
  obtain ⟨ha1, ha2, ha3, ha4⟩ :=
    hok ((oracle today).month - 1).toNat c hslot
  have hrs : selectedMonthStart ms ys ((oracle today).month - 1) = c := by
    unfold selectedMonthStart jsIndex
    rw [if_pos (by omega : (0:Int) ≤ (oracle today).month - 1)]
    rw [getD_of_getElem ms ((oracle today).month - 1).toNat c hslot]
    rfl
  have hrs_le : c ≤ today := le_trans hcle hc2
  unfold monthlyHijriData at hgrid
  rw [hrs] at hgrid
  cases hnext : jsIndex ms ((oracle today).month - 1 + 1) with
  | some nms =>
    rw [monthRangeEnd_next oracle fuel ms (oracle today).year
      ((oracle today).month - 1) c nms hnext, Option.map_some'] at hgrid
    have hdays := Option.some.inj hgrid
    have h0le : (0:Int) ≤ (oracle today).month - 1 + 1 := by omega
    have hgete : ms[((oracle today).month - 1 + 1).toNat]? =
        some (some nms) := by
      unfold jsIndex at hnext
      rw [if_pos h0le] at hnext
      exact getElem_of_getD ms _ nms hnext
    obtain ⟨hb1, hb2, hb3, hb4⟩ := hok _ nms hgete
    have hcast := Int.toNat_of_nonneg h0le
    have hnmonth : (oracle nms).month = (oracle today).month + 1 := by
      omega
    have htore : today ≤ nms - 1 := by
      by_contra hgt
      push_neg at hgt
      have hmle := seg_month_le oracle (oracle today).year hm ys hi hseg
        nms today hb1 (by omega) hto_lt
      omega
    refine ⟨mkCalendarDay oracle getHabitsForDate mainHabits
      optionalHabits today, ?_, mkCalendarDay_date _ _ _ _ _⟩
    rw [← hdays]
    exact mem_buildDays _ c (nms - 1) today hrs_le htore
  | none =>
    rw [monthRangeEnd_wrap oracle fuel ms (oracle today).year
      ((oracle today).month - 1) c hnext] at hgrid
    cases hnys : getHijriYearStart oracle fuel ((oracle today).year + 1)
        c with
    | none =>
      rw [hnys] at hgrid
      cases hgrid
    | some nys =>
      rw [hnys, Option.map_some', Option.map_some'] at hgrid
      have hdays := Option.some.inj hgrid
      obtain ⟨hny1, _⟩ := getHijriYearStart_spec oracle fuel
        ((oracle today).year + 1) c nys hnys
      have htore : today ≤ nys - 1 := by
        by_contra hgt
        push_neg at hgt
        have := year_chain oracle hy nys today (by omega)
        omega
      refine ⟨mkCalendarDay oracle getHabitsForDate mainHabits
        optionalHabits today, ?_, mkCalendarDay_date _ _ _ _ _⟩
      rw [← hdays]
      exact mem_buildDays _ c (nys - 1) today hrs_le htore

/-- The initially displayed toy grid for today = day 420 (toy year 2,
month 3): the 30 days from 414 to 443. -/
def c10Days : List CalendarDay :=
  (monthlyHijriData toyOracle 400 noRecLookup [] [] toyMS 354 2 2).getD []

set_option maxRecDepth 8000 in
/-- C10 witness: with today = toy day 420 the cursor starts at year 2,
month index 2, and the grid built from it contains day 420. -/
theorem c10_witness :
    initNav toyOracle 420 = ⟨2, 2⟩ ∧ ∃ cd ∈ c10Days, cd.date = 420 := by
  obtain ⟨h1, h2⟩ := c10_initial_grid toyOracle 400 noRecLookup [] [] 420
    354 toyMS c10Days toy_boundary toy_year_mono toy_month_mono
    toy_newmonth (by decide) (by decide) (by decide)
  refine ⟨?_, h2⟩
  rw [h1]
  decide
